/-
Verification of the SDC monitor's metric-ingestion pipeline and device
connection lifecycle, shallowly embedded from the Python sources
(`app/services/metric_service.py`, `sdc_consumer/app/services/connection_service.py`,
`sdc_consumer/app/controllers/device_controller.py`,
`sdc_consumer/app/services/discovery_service.py`, `sdc_consumer/app/main.py`,
`sdc_consumer/app/config/settings.py`).
-/
import Mathlib

set_option maxRecDepth 4096

namespace SDC

/-! ## Basic list helper: the "last n elements" view of a bounded deque.

`collections.deque(maxlen = n)` keeps the last `n` appended elements; we
realise that as `takeLast`. -/

/-- The last `n` elements of `l`, in order. -/
def takeLast (n : Nat) (l : List α) : List α :=
  l.drop (l.length - n)

theorem takeLast_eq_reverse_take (n : Nat) (l : List α) :
    takeLast n l = (l.reverse.take n).reverse :=
  List.rtake_eq_reverse_take_reverse l n

theorem takeLast_nil (n : Nat) : takeLast n ([] : List α) = [] := by
  simp [takeLast]

theorem length_takeLast (n : Nat) (l : List α) :
    (takeLast n l).length = min n l.length := by
  simp [takeLast]; omega

theorem takeLast_eq_self (n : Nat) (l : List α) (h : l.length ≤ n) :
    takeLast n l = l := by
  simp [takeLast, Nat.sub_eq_zero_of_le h]

/-- Appending then trimming absorbs an earlier trim. -/
theorem takeLast_takeLast_append (n : Nat) (xs ys : List α) :
    takeLast n (takeLast n xs ++ ys) = takeLast n (xs ++ ys) := by
  simp only [takeLast_eq_reverse_take, List.reverse_append, List.reverse_reverse]
  congr 1
  rw [List.take_append_eq_append_take, List.take_append_eq_append_take]
  congr 1
  rw [List.take_take]
  exact congrFun (congrArg _ (Nat.min_eq_left (Nat.sub_le _ _))) _

/-! ## Data model (`app/models/metric.py`, `sdc_consumer/app/config/settings.py`)

A Python float is modelled as `Rat`; a raw metric value (the `.Value`
attribute of a `MetricValue`) is modelled as `PyVal`, where `PyVal.bad`
stands for any value whose `float(...)` coercion raises. -/

/-- A raw value carried on the wire: either numeric (so `float(v)` succeeds)
or a value on which `float(v)` raises. -/
inductive PyVal where
  | num (q : Rat)
  | bad
deriving DecidableEq

/-- `float(v)` as used in `MetricService.process_metric_update`; `none`
models the raised `ValueError`/`TypeError` (caught by the per-entry
`except`). -/
def pyFloat : PyVal → Option Rat
  | .num q => some q
  | .bad => none

/-- The `MetricValue` attribute of a metric state: `Value` is always
present on it. -/
structure MVal where
  Value : PyVal
deriving DecidableEq

/-- A raw per-handle metric state as delivered in `metrics_by_handle`.
`MetricValue = none` collapses the source's two skip conditions
(`not hasattr(metric_state, 'MetricValue')` and `MetricValue is None`). -/
structure MetricState where
  MetricValue : Option MVal
deriving DecidableEq

/-- A metric descriptor as returned by
`ConnectionService.get_metric_descriptor`. `Unit = none` models a
descriptor without a `Unit` attribute (`hasattr` false, unit becomes `""`);
`Unit = some none` models `descriptor.Unit is None`, on which
`descriptor.Unit.Code` raises (entry skipped); `Unit = some (some c)`
models a `Unit` whose `Code` is `c`. -/
structure Descriptor where
  Unit : Option (Option String)
deriving DecidableEq

/-- `MetricData` (`app/models/metric.py`): one reading. Timestamps are
modelled as abstract clock values (`datetime.now()` is supplied by the
caller of the embedded operations). -/
structure MetricData where
  handle : String
  name : String
  value : Rat
  unit : String
  timestamp : Nat
deriving DecidableEq

/-- `settings.CHART_MAX_POINTS` (`sdc_consumer/app/config/settings.py`). -/
def CHART_MAX_POINTS : Nat := 100

/-- `settings.METRIC_NAMES` (`sdc_consumer/app/config/settings.py`). -/
def METRIC_NAMES : List (String × String) :=
  [("metric.hr", "Heart Rate"), ("metric.spo2", "SpO₂"),
   ("metric.temp", "Temperature")]

/-- `settings.METRIC_NAMES.get(handle, handle)`. -/
def metricNameFor (handle : String) : String :=
  ((METRIC_NAMES.find? (fun p => p.1 == handle)).map (·.2)).getD handle

/-! ## `MetricService` (`app/services/metric_service.py`)

The `_metric_history` dict is modelled as an insertion-ordered association
list (Python dicts preserve insertion order); each deque is a `List`
trimmed to the last `maxPoints` elements on append. -/

/-- The `MetricService` state: `max_points` plus the `_metric_history`
dict. -/
structure MS where
  maxPoints : Nat
  history : List (String × List MetricData)
deriving DecidableEq

/-- `MetricService.__init__`: `max_points or settings.CHART_MAX_POINTS`
(so `None` and `0` both fall back to the default, Python truthiness). -/
def mkMetricService (maxPoints : Option Nat) : MS :=
  { maxPoints :=
      match maxPoints with
      | none => CHART_MAX_POINTS
      | some 0 => CHART_MAX_POINTS
      | some n => n
    history := [] }

/-- `deque(maxlen = n).append`: keep the last `n` elements. -/
def pushBounded (n : Nat) (xs : List MetricData) (x : MetricData) :
    List MetricData :=
  takeLast n (xs ++ [x])

/-- Update the insertion-ordered dict: append a fresh key at the end,
otherwise push onto the existing deque in place. -/
def updateHistory (n : Nat) :
    List (String × List MetricData) → String → MetricData →
      List (String × List MetricData)
  | [], h, md => [(h, pushBounded n [] md)]
  | (k, v) :: t, h, md =>
    if k = h then (k, pushBounded n v md) :: t
    else (k, v) :: updateHistory n t h md

/-- `MetricService._add_to_history`. -/
def addToHistory (st : MS) (md : MetricData) : MS :=
  { st with history := updateHistory st.maxPoints st.history md.handle md }

/-- Per-entry body of the `for` loop in
`MetricService.process_metric_update` (lines 38–70): `none` means the
entry was skipped (missing value, missing descriptor, or a caught
exception), `some md` the `MetricData` built for it. -/
def entryMd (resolver : String → Option Descriptor) (now : Nat)
    (p : String × MetricState) : Option MetricData :=
  match p.2.MetricValue with
  | none => none
  | some mv =>
    match resolver p.1 with
    | none => none
    | some descriptor =>
      let build := fun (unit : String) =>
        match pyFloat mv.Value with
        | none => none
        | some x =>
          some { handle := p.1, name := metricNameFor p.1, value := x,
                 unit := unit, timestamp := now }
      match descriptor.Unit with
      | some none => none
      | none => build ""
      | some (some c) => build c

/-- `MetricService.process_metric_update`: fold the batch, appending each
produced sample to history; afterwards notify callbacks iff at least one
sample was produced. Returns (new state, produced samples, notified?). -/
def processMetricUpdate (st : MS) (resolver : String → Option Descriptor)
    (now : Nat) (batch : List (String × MetricState)) :
    MS × List MetricData × Bool :=
  let r := batch.foldl
    (fun (acc : MS × List MetricData) p =>
      match entryMd resolver now p with
      | none => acc
      | some md => (addToHistory acc.1 md, acc.2 ++ [md]))
    (st, [])
  (r.1, r.2, !r.2.isEmpty)

/-- `MetricService.get_metric_history`; `limit = some 0` behaves like no
limit (`if limit:` is false for `0`). -/
def getMetricHistory (st : MS) (handle : String) (limit : Option Nat) :
    List MetricData :=
  match st.history.find? (fun p => p.1 == handle) with
  | none => []
  | some p =>
    match limit with
    | none => p.2
    | some 0 => p.2
    | some l => takeLast l p.2

/-- `MetricService.get_latest_metric`: `history[-1] if history else None`. -/
def getLatestMetric (st : MS) (handle : String) : Option MetricData :=
  (getMetricHistory st handle none).getLast?

/-- `MetricService.get_all_latest_metrics`: dict comprehension over the
stored handles. -/
def getAllLatestMetrics (st : MS) : List (String × Option MetricData) :=
  st.history.map (fun p => (p.1, getLatestMetric st p.1))

/-- `MetricService.clear_history`; `some ""` clears everything because the
empty string is falsy in `if handle:`. -/
def clearHistory (st : MS) (handle : Option String) : MS :=
  match handle with
  | none => { st with history := [] }
  | some h =>
    if h = "" then { st with history := [] }
    else { st with history := st.history.filter (fun p => ¬(p.1 == h)) }

/-! ## Lemmas about the history store -/

/-- The deque currently stored for `handle` (empty if the handle is
absent). -/
def rawHistory (st : MS) (handle : String) : List MetricData :=
  ((st.history.find? (fun p => p.1 == handle)).map (·.2)).getD []

theorem find_updateHistory_self (n : Nat)
    (l : List (String × List MetricData)) (h : String) (md : MetricData) :
    (updateHistory n l h md).find? (fun p => p.1 == h) =
      some (h, pushBounded n (((l.find? (fun p => p.1 == h)).map (·.2)).getD []) md) := by
  induction l with
  | nil => simp [updateHistory]
  | cons a t ih =>
    obtain ⟨k, v⟩ := a
    by_cases hk : k = h
    · subst hk
      simp [updateHistory, List.find?]
    · simp only [updateHistory, if_neg hk]
      rw [List.find?_cons_of_neg, List.find?_cons_of_neg, ih]
      · simpa using hk
      · simpa using hk

theorem rawHistory_addToHistory_self (st : MS) (md : MetricData) :
    rawHistory (addToHistory st md) md.handle =
      pushBounded st.maxPoints (rawHistory st md.handle) md := by
  simp [rawHistory, addToHistory, find_updateHistory_self]

theorem maxPoints_addToHistory (st : MS) (md : MetricData) :
    (addToHistory st md).maxPoints = st.maxPoints := rfl

/-- Folding appends of same-handle samples over a store whose deque is
within capacity yields exactly the last `maxPoints` of old-plus-new. -/
theorem rawHistory_foldl_addToHistory (h : String) :
    ∀ (ms : List MetricData) (st : MS),
      (∀ m ∈ ms, m.handle = h) →
      (rawHistory st h).length ≤ st.maxPoints →
      rawHistory (ms.foldl addToHistory st) h =
        takeLast st.maxPoints (rawHistory st h ++ ms)
  | [], st, _, hle => by
    simpa using (takeLast_eq_self st.maxPoints (rawHistory st h) hle).symm
  | m :: t, st, hall, hle => by
    have hm : m.handle = h := hall m (List.mem_cons_self m t)
    have ht : ∀ x ∈ t, x.handle = h := fun x hx => hall x (List.mem_cons_of_mem m hx)
    have hstep : rawHistory (addToHistory st m) h =
        pushBounded st.maxPoints (rawHistory st h) m := by
      rw [← hm]; exact rawHistory_addToHistory_self st m
    have hlen : (rawHistory (addToHistory st m) h).length ≤
        (addToHistory st m).maxPoints := by
      rw [maxPoints_addToHistory, hstep, pushBounded, length_takeLast]
      omega
    calc rawHistory ((m :: t).foldl addToHistory st) h
        = rawHistory (t.foldl addToHistory (addToHistory st m)) h := rfl
      _ = takeLast (addToHistory st m).maxPoints
            (rawHistory (addToHistory st m) h ++ t) :=
          rawHistory_foldl_addToHistory h t (addToHistory st m) ht hlen
      _ = takeLast st.maxPoints
            (takeLast st.maxPoints (rawHistory st h ++ [m]) ++ t) := by
          rw [maxPoints_addToHistory, hstep, pushBounded]
      _ = takeLast st.maxPoints ((rawHistory st h ++ [m]) ++ t) :=
          takeLast_takeLast_append _ _ _
      _ = takeLast st.maxPoints (rawHistory st h ++ m :: t) := by
          rw [List.append_assoc]; rfl

theorem maxPoints_foldl_addToHistory (ms : List MetricData) (st : MS) :
    (ms.foldl addToHistory st).maxPoints = st.maxPoints := by
  induction ms generalizing st with
  | nil => rfl
  | cons m t ih => simpa [List.foldl_cons, maxPoints_addToHistory] using ih (addToHistory st m)

/-- `getMetricHistory` with no limit is the stored deque. -/
theorem getMetricHistory_eq_rawHistory (st : MS) (h : String) :
    getMetricHistory st h none = rawHistory st h := by
  unfold getMetricHistory rawHistory
  cases st.history.find? (fun p => p.1 == h) <;> simp

/-! ## Lemmas about `processMetricUpdate` -/

theorem processMetricUpdate_foldl_aux (resolver : String → Option Descriptor)
    (now : Nat) :
    ∀ (batch : List (String × MetricState)) (st : MS) (acc : List MetricData),
      batch.foldl
        (fun (a : MS × List MetricData) p =>
          match entryMd resolver now p with
          | none => a
          | some md => (addToHistory a.1 md, a.2 ++ [md]))
        (st, acc) =
      ((batch.filterMap (entryMd resolver now)).foldl addToHistory st,
        acc ++ batch.filterMap (entryMd resolver now))
  | [], st, acc => by simp
  | p :: t, st, acc => by
    cases hp : entryMd resolver now p with
    | none =>
      simpa [List.foldl_cons, List.filterMap_cons, hp] using
        processMetricUpdate_foldl_aux resolver now t st acc
    | some md =>
      simpa [List.foldl_cons, List.filterMap_cons, hp] using
        processMetricUpdate_foldl_aux resolver now t (addToHistory st md) (acc ++ [md])

/-- The samples produced by a batch are exactly its per-entry results. -/
theorem processMetricUpdate_produced (st : MS)
    (resolver : String → Option Descriptor) (now : Nat)
    (batch : List (String × MetricState)) :
    (processMetricUpdate st resolver now batch).2.1 =
      batch.filterMap (entryMd resolver now) := by
  unfold processMetricUpdate
  rw [processMetricUpdate_foldl_aux]
  simp

/-- The state change of a batch is the fold of appends of the produced
samples. -/
theorem processMetricUpdate_state (st : MS)
    (resolver : String → Option Descriptor) (now : Nat)
    (batch : List (String × MetricState)) :
    (processMetricUpdate st resolver now batch).1 =
      (batch.filterMap (entryMd resolver now)).foldl addToHistory st := by
  unfold processMetricUpdate
  rw [processMetricUpdate_foldl_aux]

/-- Callbacks are notified iff at least one sample was produced. -/
theorem processMetricUpdate_notified (st : MS)
    (resolver : String → Option Descriptor) (now : Nat)
    (batch : List (String × MetricState)) :
    (processMetricUpdate st resolver now batch).2.2 =
      !(batch.filterMap (entryMd resolver now)).isEmpty := by
  unfold processMetricUpdate
  rw [processMetricUpdate_foldl_aux]
  simp

/-! ## Test fixtures used to instantiate the claims -/

/-- A descriptor resolver that always resolves, with unit code `u`. -/
def unitResolver (u : String) : String → Option Descriptor :=
  fun _ => some ⟨some (some u)⟩

/-- The `MetricData` that `process_metric_update` builds for handle `h`,
unit `u`, clock `now` and numeric value `v`. -/
def sampleOf (h u : String) (now : Nat) (v : Rat) : MetricData :=
  { handle := h, name := metricNameFor h, value := v, unit := u,
    timestamp := now }

/-- A metric state carrying numeric value `v`. -/
def numState (v : Rat) : MetricState := ⟨some ⟨.num v⟩⟩

/-- A metric state with `MetricValue is None`. -/
def missingState : MetricState := ⟨none⟩

theorem processMetricUpdate_singleton_state (st : MS) (h u : String)
    (now : Nat) (v : Rat) :
    (processMetricUpdate st (unitResolver u) now [(h, numState v)]).1 =
      addToHistory st (sampleOf h u now v) := by
  rw [processMetricUpdate_state]
  simp [entryMd, unitResolver, numState, pyFloat, sampleOf]

/-- After `M > N` appends through `process_metric_update`, the history is
the last `N` appended samples, oldest first. -/
theorem appended_history_eq (N : Nat) (h : String) (vals : List Rat)
    (hN : 0 < N) (hM : N < vals.length) :
    getMetricHistory
        (vals.foldl
          (fun st v =>
            (processMetricUpdate st (unitResolver "bpm") 0
              [(h, numState v)]).1)
          (mkMetricService (some N))) h none =
      (vals.map (sampleOf h "bpm" 0)).drop (vals.length - N) := by
  have hmax : (mkMetricService (some N)).maxPoints = N := by
    cases N with
    | zero => omega
    | succ k => rfl
  have hfold : ∀ (vs : List Rat) (st : MS),
      vs.foldl
          (fun st v =>
            (processMetricUpdate st (unitResolver "bpm") 0
              [(h, numState v)]).1) st =
        (vs.map (sampleOf h "bpm" 0)).foldl addToHistory st := by
    intro vs
    induction vs with
    | nil => intro st; rfl
    | cons v t ih =>
      intro st
      simp only [List.foldl_cons, List.map_cons,
        processMetricUpdate_singleton_state]
      exact ih (addToHistory st (sampleOf h "bpm" 0 v))
  rw [hfold, getMetricHistory_eq_rawHistory]
  have hraw : rawHistory (mkMetricService (some N)) h = [] := by
    simp [rawHistory, mkMetricService]
  rw [rawHistory_foldl_addToHistory h _ _
    (by intro m hm
        simp only [List.mem_map] at hm
        obtain ⟨v, _, rfl⟩ := hm
        rfl)
    (by rw [hraw]; simp)]
  rw [hraw, hmax, List.nil_append, takeLast]
  simp

/-- Appending to a deque at capacity drops exactly the oldest element. -/
theorem addToHistory_at_capacity (st : MS) (md : MetricData)
    (h0 : 0 < st.maxPoints)
    (hlen : (rawHistory st md.handle).length = st.maxPoints) :
    rawHistory (addToHistory st md) md.handle =
      (rawHistory st md.handle).drop 1 ++ [md] := by
  rw [rawHistory_addToHistory_self, pushBounded, takeLast]
  have hx : (rawHistory st md.handle ++ [md]).length = st.maxPoints + 1 := by
    simp [hlen]
  rw [hx]
  have h1 : st.maxPoints + 1 - st.maxPoints = 1 := by omega
  rw [h1, List.drop_append_of_le_length (by omega)]

/-- C1: for every metric handle and capacity `N` (default 100 from
configuration), after appending `M > N` samples for that handle via
`process_metric_update`, `get_metric_history(handle)` returns a sequence
of length exactly `N` equal to the last `N` appended samples in order,
oldest first; appending while at capacity drops only the oldest
element. -/
theorem spec_C1 (N : Nat) (h : String) (vals : List Rat)
    (hN : 0 < N) (hM : N < vals.length) :
    getMetricHistory
        (vals.foldl
          (fun st v =>
            (processMetricUpdate st (unitResolver "bpm") 0
              [(h, numState v)]).1)
          (mkMetricService (some N))) h none =
        (vals.map (sampleOf h "bpm" 0)).drop (vals.length - N) ∧
      (getMetricHistory
        (vals.foldl
          (fun st v =>
            (processMetricUpdate st (unitResolver "bpm") 0
              [(h, numState v)]).1)
          (mkMetricService (some N))) h none).length = N ∧
      (∀ (st : MS) (md : MetricData), 0 < st.maxPoints →
        (rawHistory st md.handle).length = st.maxPoints →
        rawHistory (addToHistory st md) md.handle =
          (rawHistory st md.handle).drop 1 ++ [md]) ∧
      (mkMetricService none).maxPoints = 100 := by
  refine ⟨appended_history_eq N h vals hN hM, ?_, addToHistory_at_capacity, rfl⟩
  rw [appended_history_eq N h vals hN hM]
  simp
  omega

/-- Witness for C1 at `N = 2`, handle `"metric.hr"`, three appended
values. -/
theorem spec_C1_witness :
    (0 < 2 ∧ 2 < ([(1 : Rat), 2, 3]).length) ∧
    (getMetricHistory
        (([(1 : Rat), 2, 3]).foldl
          (fun st v =>
            (processMetricUpdate st (unitResolver "bpm") 0
              [("metric.hr", numState v)]).1)
          (mkMetricService (some 2))) "metric.hr" none =
        (([(1 : Rat), 2, 3]).map (sampleOf "metric.hr" "bpm" 0)).drop
          (([(1 : Rat), 2, 3]).length - 2) ∧
      (getMetricHistory
        (([(1 : Rat), 2, 3]).foldl
          (fun st v =>
            (processMetricUpdate st (unitResolver "bpm") 0
              [("metric.hr", numState v)]).1)
          (mkMetricService (some 2))) "metric.hr" none).length = 2 ∧
      (∀ (st : MS) (md : MetricData), 0 < st.maxPoints →
        (rawHistory st md.handle).length = st.maxPoints →
        rawHistory (addToHistory st md) md.handle =
          (rawHistory st md.handle).drop 1 ++ [md]) ∧
      (mkMetricService none).maxPoints = 100) :=
  ⟨⟨by norm_num, by norm_num⟩,
    spec_C1 2 "metric.hr" [1, 2, 3] (by norm_num) (by norm_num)⟩

/-- Numeric-coercion failure skips the entry, whatever the descriptor
says. -/
theorem entryMd_bad_value (resolver : String → Option Descriptor)
    (now : Nat) (h : String) (mv : MVal) (hbad : pyFloat mv.Value = none) :
    entryMd resolver now (h, ⟨some mv⟩) = none := by
  unfold entryMd
  cases resolver h with
  | none => rfl
  | some d =>
    cases hd : d.Unit with
    | none => simp [hd, hbad]
    | some u => cases u <;> simp [hd, hbad]

/-- C2: entries of a batch are processed independently — the produced
samples are exactly the per-entry results, a missing value, a missing
descriptor, or a failed numeric coercion skips only that entry, every
produced sample is appended, and a batch of one missing-value entry and
one valid entry yields exactly one sample. -/
theorem spec_C2 :
    (∀ (st : MS) (resolver : String → Option Descriptor) (now : Nat)
        (batch : List (String × MetricState)),
      (processMetricUpdate st resolver now batch).2.1 =
        batch.filterMap (entryMd resolver now) ∧
      (processMetricUpdate st resolver now batch).1 =
        (batch.filterMap (entryMd resolver now)).foldl addToHistory st) ∧
    (∀ (resolver : String → Option Descriptor) (now : Nat) (h : String)
        (ms : MetricState), ms.MetricValue = none →
      entryMd resolver now (h, ms) = none) ∧
    (∀ (resolver : String → Option Descriptor) (now : Nat) (h : String)
        (ms : MetricState), resolver h = none →
      entryMd resolver now (h, ms) = none) ∧
    (∀ (resolver : String → Option Descriptor) (now : Nat) (h : String)
        (mv : MVal), pyFloat mv.Value = none →
      entryMd resolver now (h, ⟨some mv⟩) = none) ∧
    (processMetricUpdate (mkMetricService none) (unitResolver "bpm") 0
        [("metric.spo2", missingState), ("metric.hr", numState 72)]).2.1 =
      [sampleOf "metric.hr" "bpm" 0 72] := by
  refine ⟨fun st r now b => ⟨processMetricUpdate_produced st r now b,
      processMetricUpdate_state st r now b⟩, ?_, ?_, ?_, ?_⟩
  · intro r now h ms hnone
    unfold entryMd
    rw [hnone]
  · intro r now h ms hnone
    unfold entryMd
    cases ms.MetricValue with
    | none => rfl
    | some mv => rw [hnone]
  · exact fun r now h mv hbad => entryMd_bad_value r now h mv hbad
  · rw [processMetricUpdate_produced]
    simp [entryMd, unitResolver, missingState, numState, pyFloat, sampleOf]

/-! ## C10: the store invariant -/

/-- The `MetricService` store invariant: the capacity is positive and
every stored handle has a non-empty deque. -/
def msInv (st : MS) : Prop :=
  0 < st.maxPoints ∧ ∀ p ∈ st.history, p.2 ≠ []

theorem pushBounded_ne_nil (n : Nat) (hn : 0 < n) (xs : List MetricData)
    (x : MetricData) : pushBounded n xs x ≠ [] := by
  intro hcon
  have := congrArg List.length hcon
  rw [pushBounded, length_takeLast] at this
  simp at this
  omega

theorem updateHistory_inv (n : Nat) (hn : 0 < n) :
    ∀ (l : List (String × List MetricData)) (h : String) (md : MetricData),
      (∀ p ∈ l, p.2 ≠ []) → ∀ p ∈ updateHistory n l h md, p.2 ≠ []
  | [], h, md, _, p, hp => by
    simp only [updateHistory, List.mem_singleton] at hp
    subst hp
    exact pushBounded_ne_nil n hn [] md
  | (k, v) :: t, h, md, hl, p, hp => by
    by_cases hk : k = h
    · simp only [updateHistory, if_pos hk, List.mem_cons] at hp
      rcases hp with rfl | hp
      · exact pushBounded_ne_nil n hn v md
      · exact hl p (List.mem_cons_of_mem _ hp)
    · simp only [updateHistory, if_neg hk, List.mem_cons] at hp
      rcases hp with rfl | hp
      · exact hl (k, v) (List.mem_cons_self _ _)
      · exact updateHistory_inv n hn t h md
          (fun q hq => hl q (List.mem_cons_of_mem _ hq)) p hp

theorem msInv_addToHistory (st : MS) (md : MetricData) (hinv : msInv st) :
    msInv (addToHistory st md) :=
  ⟨hinv.1, updateHistory_inv st.maxPoints hinv.1 st.history md.handle md hinv.2⟩

theorem msInv_foldl_addToHistory (ms : List MetricData) (st : MS)
    (hinv : msInv st) : msInv (ms.foldl addToHistory st) := by
  induction ms generalizing st with
  | nil => exact hinv
  | cons m t ih => exact ih (addToHistory st m) (msInv_addToHistory st m hinv)

theorem getLatestMetric_isSome_of_find (st : MS) (h : String)
    (hinv : msInv st)
    (hfind : (st.history.find? (fun p => p.1 == h)).isSome) :
    (getLatestMetric st h).isSome := by
  obtain ⟨q, hq⟩ := Option.isSome_iff_exists.mp hfind
  have hmem : q ∈ st.history := List.mem_of_find?_eq_some hq
  have hne : q.2 ≠ [] := hinv.2 q hmem
  unfold getLatestMetric getMetricHistory
  rw [hq]
  simpa [List.getLast?_isSome] using hne

/-- Witness for C2: the missing-value entry is skipped and the mixed
batch produces exactly the one valid sample. -/
theorem spec_C2_witness :
    entryMd (unitResolver "bpm") 0 ("metric.spo2", missingState) = none ∧
    (processMetricUpdate (mkMetricService none) (unitResolver "bpm") 0
        [("metric.spo2", missingState), ("metric.hr", numState 72)]).2.1 =
      [sampleOf "metric.hr" "bpm" 0 72] :=
  ⟨spec_C2.2.1 (unitResolver "bpm") 0 "metric.spo2" missingState rfl,
   spec_C2.2.2.2.2⟩

/-- C10: every handle present in the history store has a non-empty
history — histories are created only together with their first append and
clearing removes handles entirely — so `get_all_latest_metrics` never maps
a handle to `None` and `get_latest_metric` returns a sample exactly when
the handle is present. -/
theorem spec_C10 :
    (∀ mp, msInv (mkMetricService mp)) ∧
    (∀ (st : MS) (md : MetricData), msInv st → msInv (addToHistory st md)) ∧
    (∀ (st : MS) (r : String → Option Descriptor) (now : Nat)
        (b : List (String × MetricState)), msInv st →
      msInv (processMetricUpdate st r now b).1) ∧
    (∀ (st : MS) (h : Option String), msInv st → msInv (clearHistory st h)) ∧
    (∀ st : MS, msInv st → ∀ p ∈ getAllLatestMetrics st, p.2.isSome) ∧
    (∀ (st : MS) (h : String), msInv st →
      ((getLatestMetric st h).isSome ↔
        (st.history.find? (fun p => p.1 == h)).isSome)) := by
  refine ⟨?_, msInv_addToHistory, ?_, ?_, ?_, ?_⟩
  · intro mp
    refine ⟨?_, by simp [mkMetricService]⟩
    match mp with
    | none => norm_num [mkMetricService, CHART_MAX_POINTS]
    | some 0 => norm_num [mkMetricService, CHART_MAX_POINTS]
    | some (n + 1) => simp [mkMetricService]
  · intro st r now b hinv
    rw [processMetricUpdate_state]
    exact msInv_foldl_addToHistory _ st hinv
  · intro st h hinv
    match h with
    | none => exact ⟨hinv.1, by simp [clearHistory]⟩
    | some s =>
      show msInv (if s = "" then _ else _)
      by_cases hs : s = ""
      · rw [if_pos hs]
        exact ⟨hinv.1, by simp⟩
      · rw [if_neg hs]
        exact ⟨hinv.1, fun p hp => hinv.2 p (List.mem_of_mem_filter hp)⟩
  · intro st hinv p hp
    simp only [getAllLatestMetrics, List.mem_map] at hp
    obtain ⟨q, hq, rfl⟩ := hp
    exact getLatestMetric_isSome_of_find st q.1 hinv
      (List.find?_isSome.mpr ⟨q, hq, by simp⟩)
  · intro st h hinv
    constructor
    · intro hsome
      cases hf : st.history.find? (fun p => p.1 == h) with
      | none =>
        exfalso
        unfold getLatestMetric getMetricHistory at hsome
        rw [hf] at hsome
        simp at hsome
      | some q => rfl
    · exact getLatestMetric_isSome_of_find st h hinv

/-- Witness for C10: the invariant holds after one append to a fresh
service, and the appended handle has a latest sample. -/
theorem spec_C10_witness :
    msInv (addToHistory (mkMetricService none)
      (sampleOf "metric.hr" "bpm" 0 72)) ∧
    (getLatestMetric
      (addToHistory (mkMetricService none) (sampleOf "metric.hr" "bpm" 0 72))
      "metric.hr").isSome :=
  ⟨spec_C10.2.1 _ _ (spec_C10.1 none),
   (spec_C10.2.2.2.2.2 _ "metric.hr"
      (spec_C10.2.1 _ _ (spec_C10.1 none))).mpr (by
    rw [show (addToHistory (mkMetricService none)
        (sampleOf "metric.hr" "bpm" 0 72)).history =
        [("metric.hr", [sampleOf "metric.hr" "bpm" 0 72])] from rfl]
    rfl)⟩

/-! ## C8: where name and unit come from -/

/-- Counterexample to C8 as stated: a constant descriptor resolver (the
same descriptor for every handle) still yields different names for
different handles, so the sample's name is not resolved from the
descriptor lookup — it comes from the static `METRIC_NAMES` table. -/
theorem spec_C8_cex :
    unitResolver "bpm" "metric.hr" = unitResolver "bpm" "metric.spo2" ∧
    (processMetricUpdate (mkMetricService none) (unitResolver "bpm") 0
        [("metric.hr", numState 72), ("metric.spo2", numState 98)]).2.1 =
      [sampleOf "metric.hr" "bpm" 0 72, sampleOf "metric.spo2" "bpm" 0 98] ∧
    (sampleOf "metric.hr" "bpm" 0 72).name = "Heart Rate" ∧
    (sampleOf "metric.spo2" "bpm" 0 98).name = "SpO₂" ∧
    (sampleOf "metric.hr" "bpm" 0 72).name ≠
      (sampleOf "metric.spo2" "bpm" 0 98).name := by
  refine ⟨rfl, ?_, by decide, by decide, by decide⟩
  rw [processMetricUpdate_produced]
  simp [entryMd, unitResolver, numState, pyFloat, sampleOf]

/-- Inverting a successful per-entry step: the name comes from the static
table and the unit from the resolved descriptor. -/
theorem entryMd_inversion (r : String → Option Descriptor) (now : Nat)
    (p : String × MetricState) (md : MetricData)
    (hmd : entryMd r now p = some md) :
    md.handle = p.1 ∧ md.name = metricNameFor p.1 ∧
      ∃ d, r p.1 = some d ∧
        ((d.Unit = none ∧ md.unit = "") ∨
          ∃ c, d.Unit = some (some c) ∧ md.unit = c) := by
  unfold entryMd at hmd
  cases hv : p.2.MetricValue with
  | none => rw [hv] at hmd; exact absurd hmd (by simp)
  | some mv =>
    rw [hv] at hmd
    cases hr : r p.1 with
    | none => rw [hr] at hmd; exact absurd hmd (by simp)
    | some d =>
      rw [hr] at hmd
      simp only at hmd
      cases hu : d.Unit with
      | none =>
        rw [hu] at hmd
        cases hf : pyFloat mv.Value with
        | none => rw [hf] at hmd; exact absurd hmd (by simp)
        | some x =>
          rw [hf] at hmd
          simp only [Option.some.injEq] at hmd
          subst hmd
          exact ⟨rfl, rfl, d, rfl, Or.inl ⟨hu, rfl⟩⟩
      | some u =>
        cases u with
        | none => rw [hu] at hmd; exact absurd hmd (by simp)
        | some c =>
          rw [hu] at hmd
          cases hf : pyFloat mv.Value with
          | none => rw [hf] at hmd; exact absurd hmd (by simp)
          | some x =>
            rw [hf] at hmd
            simp only [Option.some.injEq] at hmd
            subst hmd
            exact ⟨rfl, rfl, d, rfl, Or.inr ⟨c, hu, rfl⟩⟩

/-- C8 amended: for every produced sample, the unit is resolved from the
descriptor lookup (`Unit.Code`, `""` when the descriptor has no `Unit`
attribute), the name is taken from the static `settings.METRIC_NAMES`
table keyed by handle with the handle itself as fallback (not from the
descriptor), and descriptor-resolution failure skips the entry. -/
theorem spec_C8 (st : MS) (r : String → Option Descriptor) (now : Nat)
    (batch : List (String × MetricState)) :
    (∀ md ∈ (processMetricUpdate st r now batch).2.1,
      md.name = metricNameFor md.handle ∧
        ∃ d, r md.handle = some d ∧
          ((d.Unit = none ∧ md.unit = "") ∨
            ∃ c, d.Unit = some (some c) ∧ md.unit = c)) ∧
    (∀ (h : String) (ms : MetricState), r h = none →
      entryMd r now (h, ms) = none) := by
  constructor
  · intro md hmd
    rw [processMetricUpdate_produced] at hmd
    rw [List.mem_filterMap] at hmd
    obtain ⟨p, _, hp⟩ := hmd
    obtain ⟨hh, hn, hd⟩ := entryMd_inversion r now p md hp
    rw [← hh] at hn hd
    exact ⟨hn, hd⟩
  · intro h ms hnone
    unfold entryMd
    cases ms.MetricValue with
    | none => rfl
    | some mv => rw [hnone]

/-- Witness for C8 at one concrete produced sample. -/
theorem spec_C8_witness :
    sampleOf "metric.hr" "bpm" 0 72 ∈
      (processMetricUpdate (mkMetricService none) (unitResolver "bpm") 0
        [("metric.hr", numState 72)]).2.1 ∧
    (sampleOf "metric.hr" "bpm" 0 72).name =
      metricNameFor (sampleOf "metric.hr" "bpm" 0 72).handle := by
  have hmem : sampleOf "metric.hr" "bpm" 0 72 ∈
      (processMetricUpdate (mkMetricService none) (unitResolver "bpm") 0
        [("metric.hr", numState 72)]).2.1 := by
    rw [processMetricUpdate_produced]
    simp [entryMd, unitResolver, numState, pyFloat, sampleOf]
  exact ⟨hmem,
    ((spec_C8 (mkMetricService none) (unitResolver "bpm") 0
      [("metric.hr", numState 72)]).1 _ hmem).1⟩

/-! ## C9: `DiscoveryService._extract_location_from_scopes`
(`sdc_consumer/app/services/discovery_service.py`, lines 144–201)

The `ScopesType` normalisation glue is outside the claim: the embedding
takes the list of scope strings directly. -/

/-- `LocationInfo` (`sdc_consumer/app/models/device.py`): all fields
default to `None`. -/
structure LocationInfo where
  facility : Option String := none
  poc : Option String := none
  bed : Option String := none
  room : Option String := none
  building : Option String := none
  floor : Option String := none
deriving DecidableEq

/-- Does the character list start with the given pattern? -/
def charsStartWith : List Char → List Char → Bool
  | [], _ => true
  | _ :: _, [] => false
  | a :: t, b :: u => a == b && charsStartWith t u

/-- Does the character list contain the pattern as a contiguous run? -/
def charsContain (p : List Char) : List Char → Bool
  | [] => p.isEmpty
  | b :: u => charsStartWith p (b :: u) || charsContain p u

/-- Python's `needle in hay` on strings. -/
def pyIn (needle hay : String) : Bool :=
  charsContain needle.toList hay.toList

/-- Hex-digit test used by `urllib.parse.unquote` escapes. -/
def isHexDigit (c : Char) : Bool :=
  (('0' ≤ c && c ≤ '9') || ('a' ≤ c && c ≤ 'f') || ('A' ≤ c && c ≤ 'F'))

/-- Value of a hex digit. -/
def hexVal (c : Char) : Nat :=
  if '0' ≤ c && c ≤ '9' then c.toNat - '0'.toNat
  else if 'a' ≤ c && c ≤ 'f' then c.toNat - 'a'.toNat + 10
  else c.toNat - 'A'.toNat + 10

/-- `urllib.parse.unquote` on the character list: a valid `%XX` escape
becomes the character with code `XX`, an invalid escape is kept verbatim
(faithful for ASCII escapes; multi-byte UTF-8 escape sequences do not
occur in location scopes). -/
def unquoteChars : List Char → List Char
  | [] => []
  | '%' :: a :: b :: t =>
    if isHexDigit a && isHexDigit b then
      Char.ofNat (hexVal a * 16 + hexVal b) :: unquoteChars t
    else '%' :: unquoteChars (a :: b :: t)
  | c :: t => c :: unquoteChars t

/-- `params[key] = value` on an insertion-ordered dict. -/
def dictSet (ps : List (String × String)) (k v : String) :
    List (String × String) :=
  if ps.any (fun p => p.1 == k) then
    ps.map (fun p => if p.1 == k then (k, v) else p)
  else ps ++ [(k, v)]

/-- `params.get(key)`. -/
def dictGet (ps : List (String × String)) (k : String) : Option String :=
  (ps.find? (fun p => p.1 == k)).map (·.2)

/-- Whether a scope string triggers the location parse:
`'sdc.ctxt.loc' in scope_str and '?' in scope_str`. -/
def isLocScope (s : String) : Bool :=
  pyIn "sdc.ctxt.loc" s && pyIn "?" s

/-- The loop body for one matching scope: take the query substring after
`'?'` (`split('?')[1]`), truncate at the first `','` (`split(',')[0]`),
split on `'&'`, split each piece containing `'='` at the first `'='` into
a lowercased key (`key.lower()`, ASCII) and a percent-decoded value
(`unquote(value)`), and map the keys `fac, poc, bed, rm, bldng, flr` onto
the `LocationInfo` fields. Python's single-character `str.split` is
`List.splitOn` on the character list. -/
def parseLocScope (s : String) : LocationInfo :=
  let queryPart := (s.toList.splitOn '?').getD 1 []
  let query := (queryPart.splitOn ',').headD []
  let params := (query.splitOn '&').foldl
    (fun (ps : List (String × String)) param =>
      if param.contains '=' then
        match param.splitOn '=' with
        | [] => ps
        | k :: rest =>
          dictSet ps (String.mk (k.map Char.toLower))
            (String.mk (unquoteChars (List.intercalate ['='] rest)))
      else ps) []
  { facility := dictGet params "fac", poc := dictGet params "poc",
    bed := dictGet params "bed", room := dictGet params "rm",
    building := dictGet params "bldng", floor := dictGet params "flr" }

/-- `DiscoveryService._extract_location_from_scopes`: scan the scopes in
order, parse the first one containing the location marker and a `'?'`
(then `break`), and return the empty `LocationInfo` when none matches. -/
def extractLocationFromScopes : List String → LocationInfo
  | [] => {}
  | s :: rest =>
    if isLocScope s then parseLocScope s else extractLocationFromScopes rest

/-- C9: location extraction uses only the first scope containing the
location marker and a `'?'`, parsed by the query/`,`/`&`/`=` pipeline; the
claim's example scope yields facility `HOSP`, poc `ICU`, bed `Bed01`; and
absence of any matching scope yields an empty `LocationInfo`. -/
theorem spec_C9 (scopes : List String)
    (hnone : ∀ s ∈ scopes, isLocScope s = false) :
    (∀ ss : List String,
      extractLocationFromScopes ss =
        match ss.find? isLocScope with
        | none => {}
        | some s => parseLocScope s) ∧
    extractLocationFromScopes
        ["sdc.ctxt.loc:/x?fac=HOSP&poc=ICU&bed=Bed01,other"] =
      { facility := some "HOSP", poc := some "ICU", bed := some "Bed01" } ∧
    extractLocationFromScopes scopes = {} := by
  have hmain : ∀ ss : List String,
      extractLocationFromScopes ss =
        match ss.find? isLocScope with
        | none => {}
        | some s => parseLocScope s := by
    intro ss
    induction ss with
    | nil => rfl
    | cons s rest ih =>
      by_cases hs : isLocScope s = true
      · simp [extractLocationFromScopes, hs, List.find?_cons_of_pos _ hs]
      · have hs' : isLocScope s = false := by
          cases h : isLocScope s
          · rfl
          · exact absurd h hs
        simp only [extractLocationFromScopes, hs', Bool.false_eq_true,
          if_false]
        rw [List.find?_cons_of_neg _ (by simp [hs'])]
        exact ih
  refine ⟨hmain, by decide, ?_⟩
  rw [hmain scopes]
  rw [List.find?_eq_none.mpr (fun s hs => by simp [hnone s hs])]

/-- Witness for C9: a scope list with no location-bearing scope yields the
empty `LocationInfo`. -/
theorem spec_C9_witness :
    (∀ s ∈ ["urn:uuid:1234", "other-scope"], isLocScope s = false) ∧
    extractLocationFromScopes ["urn:uuid:1234", "other-scope"] = {} :=
  ⟨by decide,
    (spec_C9 ["urn:uuid:1234", "other-scope"] (by decide)).2.2⟩

/-! ## Connection lifecycle
(`sdc_consumer/app/services/connection_service.py`,
`sdc_consumer/app/controllers/device_controller.py`,
`sdc_consumer/app/main.py`)

External calls into the `sdc11073` binding are modelled as emitted events
plus caller-supplied success flags; `device.status` is the shared mutable
status field (the controller and its connection service alias the same
`Device` object, so a single status is threaded through both). -/

/-- `DeviceStatus` (`sdc_consumer/app/models/device.py`). -/
inductive DeviceStatus where
  | discovered
  | connecting
  | connected
  | disconnected
  | error
deriving DecidableEq

/-- Externally visible actions, in program order. -/
inductive Ev where
  /-- `discovery_service.search_services(...)` in `_find_wsd_service`. -/
  | searchServices
  /-- `SdcConsumer.from_wsd_service(...)` + `start_all()`. -/
  | openSession
  /-- `ConsumerMdib(consumer)` + `init_mdib()`. -/
  | initMdib
  /-- `_populate_device_info()` (catches its own exceptions). -/
  | populateInfo
  /-- `observableproperties.bind(mdib, metrics_by_handle = cb)`. -/
  | subscribeMetrics
  /-- `observableproperties.unbind(mdib, metrics_by_handle = cb)`. -/
  | unbind
  /-- `consumer.stop_all()`. -/
  | stopAll
  /-- Assignment to `device.status`. -/
  | setStatus (s : DeviceStatus)
  /-- `_on_connected_callback()`. -/
  | notifyConnected
  /-- `_on_error_callback(msg)`. -/
  | notifyError
  /-- `_on_disconnected_callback()`. -/
  | notifyDisconnected
  /-- A call to `MetricService.clear_history` (never issued by the
  orchestrator). -/
  | clearHistory
  /-- `self.current_device_controller = None`. -/
  | dropController
  /-- A raw metric batch delivered to observers. -/
  | deliverBatch
deriving DecidableEq

/-- The `ConnectionService` fields other than the aliased device status:
`consumer`, `mdib` and `_metric_callback`, each `None`-or-set. -/
structure CSCore where
  consumer : Bool
  mdib : Bool
  metricCallback : Bool
deriving DecidableEq

/-- Result of a `ConnectionService` call: new device status, new fields,
emitted events, and whether the call raised. -/
structure CSRes where
  status : DeviceStatus
  core : CSCore
  events : List Ev
  raised : Bool
deriving DecidableEq

/-- Outcomes of the external calls made by `ConnectionService.connect`. -/
structure ConnOut where
  createOk : Bool
  startOk : Bool
  initOk : Bool
deriving DecidableEq

/-- Outcomes of the external calls made by
`ConnectionService.disconnect`. -/
structure DiscOut where
  unbindOk : Bool
  stopOk : Bool
deriving DecidableEq

def okConn : ConnOut := ⟨true, true, true⟩

def okDisc : DiscOut := ⟨true, true⟩

/-- `ConnectionService.connect` (lines 21–56): set `Connecting`, create
and start the consumer, initialise the MDIB, populate device info, set
`Connected`; any failure sets `Error` and re-raises. The current status
is never consulted. -/
def csConnect (core : CSCore) (o : ConnOut) : CSRes :=
  if ¬o.createOk then
    ⟨.error, core,
      [.setStatus .connecting, .openSession, .setStatus .error], true⟩
  else if ¬o.startOk then
    ⟨.error, { core with consumer := true },
      [.setStatus .connecting, .openSession, .setStatus .error], true⟩
  else if ¬o.initOk then
    ⟨.error, { core with consumer := true },
      [.setStatus .connecting, .openSession, .initMdib, .setStatus .error],
      true⟩
  else
    ⟨.connected, { core with consumer := true, mdib := true },
      [.setStatus .connecting, .openSession, .initMdib, .populateInfo,
        .setStatus .connected], false⟩

/-- `ConnectionService.disconnect` (lines 145–162): unbind the metric
callback when one is bound, stop the consumer when one exists, then set
`Disconnected`; every exception is caught (the status is then left as it
was). -/
def csDisconnect (status : DeviceStatus) (core : CSCore) (o : DiscOut) :
    CSRes :=
  if core.metricCallback && core.mdib then
    if ¬o.unbindOk then ⟨status, core, [.unbind], false⟩
    else if core.consumer then
      if ¬o.stopOk then ⟨status, core, [.unbind, .stopAll], false⟩
      else ⟨.disconnected, core, [.unbind, .stopAll, .setStatus .disconnected],
        false⟩
    else ⟨.disconnected, core, [.unbind, .setStatus .disconnected], false⟩
  else if core.consumer then
    if ¬o.stopOk then ⟨status, core, [.stopAll], false⟩
    else ⟨.disconnected, core, [.stopAll, .setStatus .disconnected], false⟩
  else ⟨.disconnected, core, [.setStatus .disconnected], false⟩

/-- `DeviceController` state: the aliased device status, the optional
`ConnectionService`, the controller's own `MetricService`, and which
lifecycle callbacks are registered. -/
structure DC where
  status : DeviceStatus
  cs : Option CSCore
  ms : MS
  hasOnConnected : Bool
  hasOnDisconnected : Bool
  hasOnError : Bool
deriving DecidableEq

/-- A freshly constructed `DeviceController` for a discovered device,
before callbacks are registered. -/
def newDC : DC :=
  ⟨.discovered, none, mkMetricService none, false, false, false⟩

/-- Outcome of `DeviceController.connect`'s external calls: whether
`_find_wsd_service` finds the device, then the connection outcomes. -/
structure DCOut where
  findOk : Bool
  conn : ConnOut
deriving DecidableEq

def okDC : DCOut := ⟨true, okConn⟩

/-- `DeviceController.connect` (lines 23–53): search for the WSD service,
create a `ConnectionService`, connect, subscribe to metrics, fire the
connected callback; on any exception set `Error`, fire the error
callback and re-raise. No status gate exists anywhere on this path. -/
def dcConnect (dc : DC) (o : DCOut) : DC × List Ev × Bool :=
  if ¬o.findOk then
    ({ dc with status := .error },
      [.searchServices, .setStatus .error] ++
        (if dc.hasOnError then [.notifyError] else []), true)
  else
    let r := csConnect ⟨false, false, false⟩ o.conn
    if r.raised then
      ({ dc with status := .error, cs := some r.core },
        [.searchServices] ++ r.events ++ [.setStatus .error] ++
          (if dc.hasOnError then [.notifyError] else []), true)
    else
      ({ dc with
          status := r.status
          cs := some { r.core with metricCallback := true } },
        [.searchServices] ++ r.events ++ [.subscribeMetrics] ++
          (if dc.hasOnConnected then [.notifyConnected] else []), false)

/-- `DeviceController.disconnect` (lines 64–79): disconnect the
connection service when one exists, then fire the disconnected callback
unconditionally (when registered); exceptions are caught. -/
def dcDisconnect (dc : DC) (o : DiscOut) : DC × List Ev :=
  match dc.cs with
  | none => (dc, if dc.hasOnDisconnected then [.notifyDisconnected] else [])
  | some core =>
    let r := csDisconnect dc.status core o
    ({ dc with status := r.status, cs := some r.core },
      r.events ++ (if dc.hasOnDisconnected then [.notifyDisconnected] else []))

/-- `SDCMonitorApp` state: the single current device controller. -/
structure App where
  current : Option DC
deriving DecidableEq

/-- `SDCMonitorApp._on_back_to_main` (lines 175–183): disconnect the
current controller if any, then drop it (`current_device_controller =
None`). No call to `clear_history` occurs. -/
def onBackToMain (app : App) (o : DiscOut) : App × List Ev :=
  match app.current with
  | none => (⟨none⟩, [])
  | some dc =>
    let r := dcDisconnect dc o
    (⟨none⟩, r.2 ++ [.dropController])

/-- `SDCMonitorApp._on_device_selected` (lines 130–160): build a fresh
`DeviceController` with the connected and error callbacks registered and
connect it; the previous controller, if any, is neither consulted nor
disconnected. -/
def onDeviceSelected (_app : App) (o : DCOut) : App × List Ev :=
  let dc0 : DC := { newDC with hasOnConnected := true, hasOnError := true }
  let r := dcConnect dc0 o
  ({ current := some r.1 }, r.2.1)

/-- The metric history reachable from the app state for a handle. -/
def appHistory (app : App) (h : String) : List MetricData :=
  match app.current with
  | none => []
  | some dc => getMetricHistory dc.ms h none

/-! ## C3: no gate against a second `connect()` -/

/-- Counterexample to C3 as stated: after a successful connect (status
`Connected`), a second `connect()` call is not rejected — it proceeds and
performs another session-open call without raising. -/
theorem spec_C3_cex :
    (dcConnect newDC okDC).1.status = DeviceStatus.connected ∧
    Ev.openSession ∈ (dcConnect (dcConnect newDC okDC).1 okDC).2.1 ∧
    (dcConnect (dcConnect newDC okDC).1 okDC).2.2 = false := by
  decide

/-- C3 amended: neither `DeviceController.connect` nor
`ConnectionService.connect` consults the current status — whenever the
device's WSD service is found, `connect()` opens a session, whatever the
status (including `Connecting` and `Connected`), and its emitted calls do
not depend on the status at all. -/
theorem spec_C3 (dc : DC) (o : DCOut) (hfind : o.findOk = true) :
    Ev.openSession ∈ (dcConnect dc o).2.1 ∧
    (∀ s : DeviceStatus,
      (dcConnect { dc with status := s } o).2.1 = (dcConnect dc o).2.1) := by
  obtain ⟨f, a, b, c⟩ := o
  simp only at hfind
  subst hfind
  cases a <;> cases b <;> cases c <;>
    constructor <;>
      first
        | (intro s; rfl)
        | simp [dcConnect, csConnect, okDC]

/-- Witness for C3: a `connect()` issued while the status is `Connecting`
still opens a session. -/
theorem spec_C3_witness :
    okDC.findOk = true ∧
    Ev.openSession ∈
      (dcConnect { newDC with status := DeviceStatus.connecting } okDC).2.1 :=
  ⟨rfl,
    (spec_C3 { newDC with status := DeviceStatus.connecting } okDC rfl).1⟩

/-! ## C4: disconnect raises nothing but notifies every time -/

/-- Counterexample to C4 as stated: `disconnect()` fires the
`onDisconnected` callback unconditionally, so a never-connected controller
already gets a notification and two consecutive `disconnect()` calls on a
connected controller deliver two notifications for one disconnection. -/
theorem spec_C4_cex :
    (dcDisconnect
        ⟨.discovered, none, mkMetricService none, false, true, false⟩
        okDisc).2.count .notifyDisconnected = 1 ∧
    ((dcDisconnect
        ⟨.connected, some ⟨true, true, true⟩, mkMetricService none,
          false, true, false⟩ okDisc).2 ++
      (dcDisconnect
        (dcDisconnect
          ⟨.connected, some ⟨true, true, true⟩, mkMetricService none,
            false, true, false⟩ okDisc).1 okDisc).2).count
      .notifyDisconnected = 2 := by
  constructor <;> rfl

/-- C4 amended: `disconnect()` never raises (`ConnectionService.disconnect`
catches everything), calling it when never connected leaves the state
unchanged, and calling it twice in a row (with the teardown succeeding)
leaves the same state as calling it once; however, the `onDisconnected`
callback fires exactly once on every call when registered, so repeated
calls deliver repeated notifications. -/
theorem spec_C4 (dc : DC) (o : DiscOut) (hnc : dc.cs = none) :
    (dcDisconnect dc o).1 = dc ∧
    (∀ dc' : DC,
      (dcDisconnect (dcDisconnect dc' okDisc).1 okDisc).1 =
        (dcDisconnect dc' okDisc).1) ∧
    (∀ (dc' : DC) (o' : DiscOut),
      (dcDisconnect dc' o').2.count .notifyDisconnected =
        if dc'.hasOnDisconnected then 1 else 0) ∧
    (∀ (s : DeviceStatus) (core : CSCore) (o' : DiscOut),
      (csDisconnect s core o').raised = false) := by
  refine ⟨by simp [dcDisconnect, hnc], ?_, ?_, ?_⟩
  · intro dc'
    obtain ⟨st, cs, ms, b1, b2, b3⟩ := dc'
    cases cs with
    | none => rfl
    | some core =>
      obtain ⟨cc, cm, cb⟩ := core
      cases cc <;> cases cm <;> cases cb <;> rfl
  · intro dc' o'
    obtain ⟨st, cs, ms, b1, b2, b3⟩ := dc'
    obtain ⟨u, v⟩ := o'
    cases cs with
    | none => cases b2 <;> rfl
    | some core =>
      obtain ⟨cc, cm, cb⟩ := core
      cases cc <;> cases cm <;> cases cb <;> cases u <;> cases v <;>
        cases b2 <;> rfl
  · intro s core o'
    obtain ⟨cc, cm, cb⟩ := core
    obtain ⟨u, v⟩ := o'
    cases cc <;> cases cm <;> cases cb <;> cases u <;> cases v <;> rfl

/-- Witness for C4: a never-connected controller is left unchanged. -/
theorem spec_C4_witness :
    newDC.cs = none ∧ (dcDisconnect newDC okDisc).1 = newDC :=
  ⟨rfl, (spec_C4 newDC okDisc rfl).1⟩

/-! ## C5: unsubscribe-first ordering inside `disconnect` -/

/-- C5: on a connected, subscribed device, `ConnectionService.disconnect`
emits the unbind of the raw update stream strictly first — before the
transport teardown (`stop_all`) and before the status is set to
`Disconnected` — it delivers no metric batch itself, and on the successful
path the trace is exactly unbind, stop, set-`Disconnected`. -/
theorem spec_C5 (status : DeviceStatus) (core : CSCore) (o : DiscOut)
    (hcb : core.metricCallback = true) (hm : core.mdib = true)
    (hc : core.consumer = true) :
    (∃ rest, (csDisconnect status core o).events = Ev.unbind :: rest ∧
      Ev.unbind ∉ rest) ∧
    Ev.deliverBatch ∉ (csDisconnect status core o).events ∧
    (csDisconnect status core okDisc).events =
      [Ev.unbind, Ev.stopAll, Ev.setStatus DeviceStatus.disconnected] ∧
    (csDisconnect status core okDisc).status =
      DeviceStatus.disconnected := by
  obtain ⟨cc, cm, cb⟩ := core
  simp only at hcb hm hc
  subst hcb; subst hm; subst hc
  obtain ⟨u, v⟩ := o
  cases u <;> cases v <;>
    exact ⟨⟨_, rfl, by decide⟩, by simp [csDisconnect], rfl, rfl⟩

/-- Witness for C5 on a concrete subscribed connection. -/
theorem spec_C5_witness :
    (∃ rest,
      (csDisconnect DeviceStatus.connected ⟨true, true, true⟩
        ⟨false, true⟩).events = Ev.unbind :: rest ∧ Ev.unbind ∉ rest) ∧
    (csDisconnect DeviceStatus.connected ⟨true, true, true⟩ okDisc).events =
      [Ev.unbind, Ev.stopAll, Ev.setStatus DeviceStatus.disconnected] :=
  ⟨(spec_C5 DeviceStatus.connected ⟨true, true, true⟩ ⟨false, true⟩
      rfl rfl rfl).1,
   (spec_C5 DeviceStatus.connected ⟨true, true, true⟩ okDisc
      rfl rfl rfl).2.2.1⟩

/-! ## C6: navigation away drops the controller but never calls
`clear_history` -/

/-- Counterexample to C6 as stated: with a non-empty history, navigating
back issues no `clear_history` call, and the disconnect leaves the
controller's metric store untouched — histories vanish only because the
whole controller object is dropped. -/
theorem spec_C6_cex :
    (rawHistory
      (addToHistory (mkMetricService none)
        (sampleOf "metric.hr" "bpm" 0 72)) "metric.hr").isEmpty = false ∧
    Ev.clearHistory ∉
      (onBackToMain
        ⟨some ⟨.connected, some ⟨true, true, true⟩,
          addToHistory (mkMetricService none)
            (sampleOf "metric.hr" "bpm" 0 72), true, true, true⟩⟩
        okDisc).2 ∧
    (dcDisconnect
        ⟨.connected, some ⟨true, true, true⟩,
          addToHistory (mkMetricService none)
            (sampleOf "metric.hr" "bpm" 0 72), true, true, true⟩
        okDisc).1.ms =
      addToHistory (mkMetricService none)
        (sampleOf "metric.hr" "bpm" 0 72) := by
  refine ⟨rfl, by decide, rfl⟩

/-- C6 amended: on navigation away the orchestrator calls the
controller's `disconnect` and then discards the whole controller
(`current_device_controller = None`), dropping its metric store with it;
`clear_history` is never invoked and the store itself is left untouched
by the disconnect, but afterwards no metric history is reachable from the
app. -/
theorem spec_C6 (app : App) (o : DiscOut) :
    (onBackToMain app o).1.current = none ∧
    (∀ h, appHistory (onBackToMain app o).1 h = []) ∧
    (∀ dc, app.current = some dc →
      (onBackToMain app o).2 = (dcDisconnect dc o).2 ++ [Ev.dropController] ∧
      (dcDisconnect dc o).1.ms = dc.ms) ∧
    (app.current = none → (onBackToMain app o).2 = []) := by
  refine ⟨?_, ?_, ?_, ?_⟩
  · cases app with
    | mk cur => cases cur <;> rfl
  · intro h
    cases app with
    | mk cur => cases cur <;> rfl
  · intro dc hdc
    cases app with
    | mk cur =>
      simp only at hdc
      subst hdc
      refine ⟨rfl, ?_⟩
      cases hcs : dc.cs with
      | none => simp [dcDisconnect, hcs]
      | some core => simp [dcDisconnect, hcs]
  · intro hnone
    cases app with
    | mk cur =>
      simp only at hnone
      subst hnone
      rfl

/-- Witness for C6 at a concrete app state holding one controller with a
non-empty history. -/
theorem spec_C6_witness :
    (onBackToMain
        ⟨some ⟨.connected, some ⟨true, true, true⟩,
          addToHistory (mkMetricService none)
            (sampleOf "metric.hr" "bpm" 0 72), true, true, true⟩⟩
        okDisc).1.current = none ∧
    appHistory
      (onBackToMain
        ⟨some ⟨.connected, some ⟨true, true, true⟩,
          addToHistory (mkMetricService none)
            (sampleOf "metric.hr" "bpm" 0 72), true, true, true⟩⟩
        okDisc).1 "metric.hr" = [] :=
  ⟨(spec_C6
      ⟨some ⟨.connected, some ⟨true, true, true⟩,
        addToHistory (mkMetricService none)
          (sampleOf "metric.hr" "bpm" 0 72), true, true, true⟩⟩
      okDisc).1,
   (spec_C6
      ⟨some ⟨.connected, some ⟨true, true, true⟩,
        addToHistory (mkMetricService none)
          (sampleOf "metric.hr" "bpm" 0 72), true, true, true⟩⟩
      okDisc).2.1 "metric.hr"⟩

/-! ## C7: selecting a second device never disconnects the first -/

/-- Counterexample to C7 as stated: with a connected session active,
selecting a second device starts a new session-open without any unbind,
`stop_all` or `Disconnected` transition — the first session is not
disconnected first. -/
theorem spec_C7_cex :
    ((onDeviceSelected ⟨none⟩ okDC).1.current.map DC.status =
      some DeviceStatus.connected) ∧
    Ev.openSession ∈
      (onDeviceSelected (onDeviceSelected ⟨none⟩ okDC).1 okDC).2 ∧
    Ev.unbind ∉
      (onDeviceSelected (onDeviceSelected ⟨none⟩ okDC).1 okDC).2 ∧
    Ev.stopAll ∉
      (onDeviceSelected (onDeviceSelected ⟨none⟩ okDC).1 okDC).2 ∧
    Ev.setStatus DeviceStatus.disconnected ∉
      (onDeviceSelected (onDeviceSelected ⟨none⟩ okDC).1 okDC).2 := by
  decide

/-- C7 amended: `_on_device_selected` ignores the existing session
entirely — its behaviour does not depend on the current controller, it
issues no unbind, no `stop_all` and no `Disconnected` transition, and it
simply replaces the current controller with the freshly connected one. -/
theorem spec_C7 (app : App) (o : DCOut) :
    onDeviceSelected app o = onDeviceSelected ⟨none⟩ o ∧
    Ev.unbind ∉ (onDeviceSelected app o).2 ∧
    Ev.stopAll ∉ (onDeviceSelected app o).2 ∧
    Ev.setStatus DeviceStatus.disconnected ∉ (onDeviceSelected app o).2 ∧
    (onDeviceSelected app o).1.current =
      some (dcConnect
        { newDC with hasOnConnected := true, hasOnError := true } o).1 := by
  refine ⟨rfl, ?_, ?_, ?_, rfl⟩ <;>
    · obtain ⟨f, a, b, c⟩ := o
      cases f <;> cases a <;> cases b <;> cases c <;>
        simp [onDeviceSelected, dcConnect, csConnect, newDC]

/-- Witness for C7: selecting a device with a connected session in place
behaves exactly as selecting it with no session in place. -/
theorem spec_C7_witness :
    onDeviceSelected (onDeviceSelected ⟨none⟩ okDC).1 okDC =
      onDeviceSelected ⟨none⟩ okDC :=
  (spec_C7 (onDeviceSelected ⟨none⟩ okDC).1 okDC).1

end SDC
